import Mathlib

/-!
Shallow embedding of the `webmcp-kanban` board core:
the board state engine (`boardReducer` and its seed data, from the store
module) and the eight WebMCP tool handlers (from `WebMCPTools.jsx`).

Modelling conventions:
- JavaScript strings are `String`, arrays are `List`, objects are structures.
- The nondeterministic environment calls `crypto.randomUUID()` and
  `new Date().toISOString()` are threaded in as explicit `freshId` / `now`
  parameters.
- JavaScript `x || d` on strings (falsy on `undefined` and `""`) is
  `jsOrString`; on arrays (always truthy when present) it is `Option.getD`.
- React's `dispatch` commits an action through `boardReducer` before the
  next operation runs (single-threaded run-to-completion scheduling), so a
  handler that dispatches returns the reduced board; the `stateRef`
  live-state accessor is modelled by handlers receiving the current board.
-/

namespace Kanban

/-- A kanban card, as stored in the board state (`store` module). -/
structure Card where
  id : String
  title : String
  description : String
  priority : String
  labels : List String
  column : String
  createdAt : String
deriving Repr, DecidableEq

/-- The board aggregate: the fixed column list and the global card list.
`columnMeta` display attributes are modelled by `columnMetaTitle` below. -/
structure Board where
  columns : List String
  cards : List Card
deriving Repr, DecidableEq

/-- The fixed column identifier set (store `INITIAL_STATE.columns`, and the
`columnEnum` Zod enumeration in `WebMCPTools.jsx`). -/
def COLUMNS : List String := ["backlog", "todo", "in-progress", "done"]

/-- The `priorityEnum` Zod enumeration. -/
def PRIORITIES : List String := ["low", "medium", "high", "critical"]

/-- `columnMeta[col].title` from the store. -/
def columnMetaTitle : String → String
  | "backlog" => "Backlog"
  | "todo" => "To Do"
  | "in-progress" => "In Progress"
  | "done" => "Done"
  | _ => ""

/-- The seed card set (`SEED_CARDS` in the store). -/
def SEED_CARDS : List Card := [
  { id := "seed-1", title := "Research WebMCP specification",
    description := "Read the W3C draft community group report and understand the navigator.modelContext API surface.",
    priority := "high", labels := ["research", "webmcp"], column := "done",
    createdAt := "2026-02-08T10:00:00.000Z" },
  { id := "seed-2", title := "Set up React + Vite project",
    description := "Initialize the project with React 18, Vite, and Tailwind CSS.",
    priority := "high", labels := ["setup"], column := "done",
    createdAt := "2026-02-09T09:00:00.000Z" },
  { id := "seed-3", title := "Implement board state management",
    description := "Create React Context + useReducer store with localStorage persistence.",
    priority := "critical", labels := ["core", "state"], column := "in-progress",
    createdAt := "2026-02-10T08:00:00.000Z" },
  { id := "seed-4", title := "Register WebMCP tools",
    description := "Wire up all 8 tools using useWebMCP hooks with Zod schemas.",
    priority := "critical", labels := ["webmcp", "core"], column := "in-progress",
    createdAt := "2026-02-10T11:00:00.000Z" },
  { id := "seed-5", title := "Add drag-and-drop between columns",
    description := "Implement native HTML5 DnD with visual feedback on drag over.",
    priority := "high", labels := ["ux", "dnd"], column := "todo",
    createdAt := "2026-02-11T10:00:00.000Z" },
  { id := "seed-6", title := "Write blog posts",
    description := "Three blog posts explaining WebMCP, the implementation, and comparison with traditional MCP.",
    priority := "medium", labels := ["docs", "blog"], column := "todo",
    createdAt := "2026-02-11T14:00:00.000Z" },
  { id := "seed-7", title := "Add card editing UI",
    description := "Click on a card to open an edit modal with title, description, priority, and labels fields.",
    priority := "low", labels := ["ux"], column := "backlog",
    createdAt := "2026-02-12T09:00:00.000Z" },
  { id := "seed-8", title := "Mobile responsive layout",
    description := "Make the board scroll horizontally on small screens.",
    priority := "low", labels := ["ux", "responsive"], column := "backlog",
    createdAt := "2026-02-12T10:00:00.000Z" }
]

/-- The store's `INITIAL_STATE`. -/
def INITIAL_STATE : Board := { columns := COLUMNS, cards := SEED_CARDS }

/-- JavaScript `x || d` for an optional string: `undefined` and `""` are
falsy, every other string is truthy. -/
def jsOrString (v : Option String) (d : String) : String :=
  match v with
  | none => d
  | some s => if s = "" then d else s

/-- JavaScript `s || d` for a string already known to be defined. -/
def jsStrOr (s d : String) : String :=
  if s = "" then d else s

/-- The `ADD_CARD` action payload (the object the dispatching caller built;
fields a caller may omit are `Option`). -/
structure AddCardPayload where
  id : Option String
  title : String
  description : Option String
  priority : Option String
  labels : Option (List String)
  column : Option String
deriving Repr, DecidableEq

/-- The `UPDATE_CARD` payload's `updates` object: only keys the caller set
are present. -/
structure CardUpdates where
  title : Option String
  description : Option String
  priority : Option String
  labels : Option (List String)
deriving Repr, DecidableEq

/-- The seven `boardReducer` actions. -/
inductive Action where
  | loadBoard (cards : List Card)
  | addCard (payload : AddCardPayload)
  | moveCard (cardId toColumn : String)
  | updateCard (cardId : String) (updates : CardUpdates)
  | deleteCard (cardId : String)
  | addLabel (cardId label : String)
  | reorderColumn (column : String) (cardIds : List String)
deriving Repr

/-- JavaScript spread merge `{ ...card, ...updates }` where `updates` holds
only the keys the `update_card` handler found defined. -/
def applyUpdates (card : Card) (u : CardUpdates) : Card :=
  { card with
    title := u.title.getD card.title
    description := u.description.getD card.description
    priority := u.priority.getD card.priority
    labels := u.labels.getD card.labels }

/-- The per-card map function of the `ADD_LABEL` branch of the reducer. -/
def addLabelTransform (cardId label : String) (card : Card) : Card :=
  if card.id != cardId then card
  else if card.labels.contains label then card
  else { card with labels := card.labels ++ [label] }

/-- The board state engine (`boardReducer` in the store module).
`freshId` stands for the `crypto.randomUUID()` call in the `ADD_CARD`
branch and `now` for its `new Date().toISOString()` call. -/
def boardReducer (freshId now : String) (state : Board) (action : Action) :
    Board :=
  match action with
  | .loadBoard cards => { state with cards := cards }
  | .addCard payload =>
    let newCard : Card := {
      id := jsOrString payload.id freshId
      title := payload.title
      description := jsOrString payload.description ""
      priority := jsOrString payload.priority "medium"
      labels := payload.labels.getD []
      column := jsOrString payload.column "backlog"
      createdAt := now }
    { state with cards := state.cards ++ [newCard] }
  | .moveCard cardId toColumn =>
    { state with cards := state.cards.map fun card =>
        if card.id == cardId then { card with column := toColumn } else card }
  | .updateCard cardId updates =>
    { state with cards := state.cards.map fun card =>
        if card.id == cardId then applyUpdates card updates else card }
  | .deleteCard cardId =>
    { state with cards := state.cards.filter fun card => card.id != cardId }
  | .addLabel cardId label =>
    { state with cards := state.cards.map (addLabelTransform cardId label) }
  | .reorderColumn column cardIds =>
    let otherCards := state.cards.filter fun c => c.column != column
    let reorderedCards :=
      (cardIds.map fun i => state.cards.find? fun c => c.id == i).reduceOption
    { state with cards := otherCards ++ reorderedCards }

/-! ## Tool surface (`WebMCPTools.jsx`)

Each handler reads the current board through the `stateRef` live-state
accessor (modelled by the explicit `Board` argument) and performs at most
one dispatch (modelled by applying `boardReducer` to produce the returned
board, per the single-threaded run-to-completion scheduling model). -/

/-- A card as rendered in the `get_board` result (no `column` field; the
card sits inside its column group). -/
structure CardView where
  id : String
  title : String
  description : String
  priority : String
  labels : List String
  createdAt : String
deriving Repr, DecidableEq

/-- One column group in the `get_board` result. -/
structure BoardColumnView where
  column : String
  title : String
  cardCount : Nat
  cards : List CardView
deriving Repr, DecidableEq

/-- The `get_board` result object. -/
structure GetBoardResult where
  columns : List BoardColumnView
  totalCards : Nat
deriving Repr, DecidableEq

/-- Tool 1: `get_board`. Pure read; groups cards by column. -/
def get_board (b : Board) : GetBoardResult :=
  { columns := b.columns.map fun colId =>
      { column := colId
        title := columnMetaTitle colId
        cardCount := (b.cards.filter fun c => c.column == colId).length
        cards := (b.cards.filter fun c => c.column == colId).map fun c =>
          { id := c.id, title := c.title, description := c.description,
            priority := c.priority, labels := c.labels,
            createdAt := c.createdAt } }
    totalCards := b.cards.length }

/-- `create_card` input after Zod validation: `description` and `labels`
are `.optional()`; `priority` and `column` carry Zod `.default` values, so
the handler always receives them. -/
structure CreateCardInput where
  title : String
  description : Option String
  priority : String
  labels : Option (List String)
  column : String
deriving Repr, DecidableEq

/-- The `create_card` result object. -/
structure CreateCardResult where
  success : Bool
  card : Card
deriving Repr, DecidableEq

/-- Tool 2: `create_card`. `freshId` stands for the handler's
`crypto.randomUUID()` call; `now` for the `toISOString` instants (the
handler's result timestamp and the reducer's stored timestamp are taken at
the same modelled instant). -/
def create_card (freshId now : String) (input : CreateCardInput) (b : Board) :
    CreateCardResult × Board :=
  let payload : AddCardPayload := {
    id := some freshId
    title := input.title
    description := some (jsStrOr (input.description.getD "") "")
    priority := some (jsStrOr input.priority "medium")
    labels := some (input.labels.getD [])
    column := some (jsStrOr input.column "backlog") }
  let b' := boardReducer freshId now b (.addCard payload)
  ({ success := true,
     card := { id := freshId, title := input.title,
               description := jsOrString input.description "",
               priority := jsStrOr input.priority "medium",
               labels := input.labels.getD [],
               column := jsStrOr input.column "backlog",
               createdAt := now } }, b')

/-- The `move_card` result object: either `{success:false, error}` or
`{success:true, cardId, fromColumn, toColumn}`. -/
inductive MoveCardResult where
  | failure (error : String)
  | ok (cardId fromColumn toColumn : String)
deriving Repr, DecidableEq

/-- The `success` field of a `move_card` result. -/
def MoveCardResult.success : MoveCardResult → Bool
  | .failure _ => false
  | .ok _ _ _ => true

/-- Tool 3: `move_card`. -/
def move_card (cardId toColumn : String) (b : Board) :
    MoveCardResult × Board :=
  match b.cards.find? fun c => c.id == cardId with
  | none => (.failure ("Card \"" ++ cardId ++ "\" not found"), b)
  | some card =>
    if card.column == toColumn then
      (.failure ("Card is already in \"" ++ toColumn ++ "\""), b)
    else
      (.ok cardId card.column toColumn,
       boardReducer "" "" b (.moveCard cardId toColumn))

/-- The `update_card` result object. -/
inductive UpdateCardResult where
  | failure (error : String)
  | ok (cardId : String) (updatedFields : List String)
deriving Repr, DecidableEq

/-- `update_card` input after Zod validation: every mutable field optional. -/
structure UpdateCardInput where
  title : Option String
  description : Option String
  priority : Option String
  labels : Option (List String)
deriving Repr, DecidableEq

/-- `Object.keys(updates)` in the handler's key insertion order. -/
def updatedFieldsOf (u : CardUpdates) : List String :=
  (if u.title.isSome then ["title"] else []) ++
  (if u.description.isSome then ["description"] else []) ++
  (if u.priority.isSome then ["priority"] else []) ++
  (if u.labels.isSome then ["labels"] else [])

/-- Tool 4: `update_card`. The handler copies exactly the defined inputs
into the `updates` object. -/
def update_card (cardId : String) (input : UpdateCardInput) (b : Board) :
    UpdateCardResult × Board :=
  match b.cards.find? fun c => c.id == cardId with
  | none => (.failure ("Card \"" ++ cardId ++ "\" not found"), b)
  | some _ =>
    let updates : CardUpdates := {
      title := input.title, description := input.description,
      priority := input.priority, labels := input.labels }
    (.ok cardId (updatedFieldsOf updates),
     boardReducer "" "" b (.updateCard cardId updates))

/-- The `delete_card` result object. -/
inductive DeleteCardResult where
  | failure (error : String)
  | ok (id title column : String)
deriving Repr, DecidableEq

/-- Tool 5: `delete_card`. -/
def delete_card (cardId : String) (b : Board) : DeleteCardResult × Board :=
  match b.cards.find? fun c => c.id == cardId with
  | none => (.failure ("Card \"" ++ cardId ++ "\" not found"), b)
  | some card =>
    (.ok card.id card.title card.column,
     boardReducer "" "" b (.deleteCard cardId))

/-- The `add_label` result object: not-found failure, flagged
already-exists success, or plain success with the new label count. -/
inductive AddLabelResult where
  | failure (error : String)
  | alreadyExists (cardId label : String)
  | ok (cardId label : String) (newLabelCount : Nat)
deriving Repr, DecidableEq

/-- Tool 6: `add_label`. -/
def add_label (cardId label : String) (b : Board) : AddLabelResult × Board :=
  match b.cards.find? fun c => c.id == cardId with
  | none => (.failure ("Card \"" ++ cardId ++ "\" not found"), b)
  | some card =>
    if card.labels.contains label then
      (.alreadyExists cardId label, b)
    else
      (.ok cardId label (card.labels.length + 1),
       boardReducer "" "" b (.addLabel cardId label))

/-- Per-priority counts in the `get_column_summary` result. -/
structure PriorityCounts where
  low : Nat
  medium : Nat
  high : Nat
  critical : Nat
deriving Repr, DecidableEq

/-- A card as listed by `get_column_summary` and `prioritize_column`. -/
structure CardBrief where
  id : String
  title : String
  priority : String
deriving Repr, DecidableEq

/-- The `get_column_summary` result object. -/
structure ColumnSummaryResult where
  column : String
  title : String
  cardCount : Nat
  priorities : PriorityCounts
  labels : List String
  cards : List CardBrief
deriving Repr, DecidableEq

/-- Tool 7: `get_column_summary`. Pure read. The `priorities[c.priority]++`
loop is modelled by per-value counts (each card's priority is one of the
four Zod enumeration values). `[...new Set(...)]` keeps first occurrences
in encounter order, which is `List.dedup`'s behaviour on the flattened
label list. -/
def get_column_summary (column : String) (b : Board) : ColumnSummaryResult :=
  let cards := b.cards.filter fun c => c.column == column
  { column := column
    title := columnMetaTitle column
    cardCount := cards.length
    priorities := {
      low := (cards.filter fun c => c.priority == "low").length
      medium := (cards.filter fun c => c.priority == "medium").length
      high := (cards.filter fun c => c.priority == "high").length
      critical := (cards.filter fun c => c.priority == "critical").length }
    labels := (cards.flatMap fun c => c.labels).dedup
    cards := cards.map fun c =>
      { id := c.id, title := c.title, priority := c.priority } }

/-- The handler's `priorityOrder` lookup object; a key outside the four
enumeration values is `undefined` in the source (`none` here). -/
def priorityOrder (p : String) : Option Nat :=
  if p = "critical" then some 0
  else if p = "high" then some 1
  else if p = "medium" then some 2
  else if p = "low" then some 3
  else none

/-- Priority rank of a card, totalised for sorting. Every priority that
reaches the handler is one of the four enumeration values (Zod-validated
input and seed data), so the `4` default is never exercised on such
boards; order-sensitive theorems carry that hypothesis. -/
def priorityRank (c : Card) : Nat := (priorityOrder c.priority).getD 4

/-- The `prioritize_column` result object. -/
structure PrioritizeResult where
  success : Bool
  column : String
  newOrder : List CardBrief
deriving Repr, DecidableEq

/-- The comparator preorder used by `prioritize_column`'s sort. -/
def rankLe (a b : Card) : Prop := priorityRank a ≤ priorityRank b

instance : DecidableRel rankLe := fun a b => Nat.decLe (priorityRank a) (priorityRank b)

/-- Tool 8: `prioritize_column`. JavaScript `Array.prototype.sort` with the
comparator `priorityOrder[a.priority] - priorityOrder[b.priority]` is
specified as a stable sort by priority rank; the stable sort for a total
preorder is unique, modelled here by `List.insertionSort` on `rankLe`. -/
def prioritize_column (column : String) (b : Board) :
    PrioritizeResult × Board :=
  let cards := b.cards.filter fun c => c.column == column
  let sorted := cards.insertionSort rankLe
  let cardIds := sorted.map fun c => c.id
  ({ success := true
     column := column
     newOrder := sorted.map fun c =>
       { id := c.id, title := c.title, priority := c.priority } },
   boardReducer "" "" b (.reorderColumn column cardIds))

/-! ## Persistence (the store's `BoardProvider`)

The durable format is the JSON serialization of `state.cards` under one
fixed key. JSON text is modelled at the JSON-value level: `STORAGE_KEY`
holds `Option Json`, where `none` covers both an absent key and a value on
which `JSON.parse` throws (the `try`/`catch` treats them alike). -/

/-- JSON values, as produced by `JSON.parse`. -/
inductive Json where
  | null
  | bool (b : Bool)
  | str (s : String)
  | arr (xs : List Json)
  | obj (fields : List (String × Json))
deriving Repr

/-- `JSON.stringify` of one card: object with the card's keys in their
insertion order. -/
def encodeCard (c : Card) : Json :=
  .obj [("id", .str c.id), ("title", .str c.title),
        ("description", .str c.description), ("priority", .str c.priority),
        ("labels", .arr (c.labels.map .str)), ("column", .str c.column),
        ("createdAt", .str c.createdAt)]

/-- `JSON.stringify(state.cards)`: the serialized durable value. -/
def serializeCards (cards : List Card) : Json :=
  .arr (cards.map encodeCard)

/-- Read back a string field from a decoded JSON object. -/
def jsonStr? : Json → Option String
  | .str s => some s
  | _ => none

/-- Read back a list of strings from decoded JSON values. -/
def strList? : List Json → Option (List String)
  | [] => some []
  | j :: js => do
    let s ← jsonStr? j
    let rest ← strList? js
    pure (s :: rest)

/-- Read back a string array from a decoded JSON value. -/
def jsonStrList? : Json → Option (List String)
  | .arr xs => strList? xs
  | _ => none

/-- Typed read-back of one stored card (the inverse of `encodeCard` on
well-formed values; the source consumes the parsed objects directly, this
function is the typed-model boundary). -/
def decodeCard : Json → Option Card
  | .obj fields => do
    let find := fun (k : String) => (fields.find? fun f => f.1 == k).map (·.2)
    let id ← (find "id").bind jsonStr?
    let title ← (find "title").bind jsonStr?
    let description ← (find "description").bind jsonStr?
    let priority ← (find "priority").bind jsonStr?
    let labels ← (find "labels").bind jsonStrList?
    let column ← (find "column").bind jsonStr?
    let createdAt ← (find "createdAt").bind jsonStr?
    pure { id, title, description, priority, labels, column, createdAt }
  | _ => none

/-- Read back a list of cards from decoded JSON values. -/
def cardList? : List Json → Option (List Card)
  | [] => some []
  | j :: js => do
    let c ← decodeCard j
    let rest ← cardList? js
    pure (c :: rest)

/-- Typed read-back of the stored card collection: the stored value must be
an array (`Array.isArray`) of card objects. -/
def decodeCards : Json → Option (List Card)
  | .arr xs => cardList? xs
  | _ => none

/-- The `useReducer` lazy init function in `BoardProvider`: take the saved
cards when the saved value parses to a nonempty array, otherwise keep the
seed-backed `initial` state. (`saved = none` is an absent key or a
`JSON.parse` throw; a non-array or empty-array value also falls through to
`initial`.) -/
def boardInit (saved : Option Json) (initial : Board) : Board :=
  match saved with
  | none => initial
  | some j =>
    match decodeCards j with
    | some cards => if cards.length > 0 then { initial with cards := cards } else initial
    | none => initial

/-! ## Reachability through the tool surface -/

/-- The board invariant: every card's column is in the fixed column set and
card ids are pairwise distinct. -/
def GoodBoard (b : Board) : Prop :=
  (∀ c ∈ b.cards, c.column ∈ COLUMNS) ∧ (b.cards.map Card.id).Nodup

/-- One invocation of one of the eight tool-surface operations, relating
the board before to the board after. Read-only tools leave the board as
is. The hypotheses on the mutating constructors are exactly what the
environment guarantees at the tool boundary: Zod's `columnEnum` validation
for column arguments, and collision-freedom of `crypto.randomUUID()` for
the generated id. -/
inductive ToolStep : Board → Board → Prop where
  | get_board (b : Board) : ToolStep b b
  | get_column_summary (b : Board) (column : String) : ToolStep b b
  | create_card (b : Board) (freshId now : String) (input : CreateCardInput)
      (hcol : input.column ∈ COLUMNS)
      (hfresh : ∀ c ∈ b.cards, c.id ≠ freshId) :
      ToolStep b (Kanban.create_card freshId now input b).2
  | move_card (b : Board) (cardId toColumn : String)
      (hcol : toColumn ∈ COLUMNS) :
      ToolStep b (Kanban.move_card cardId toColumn b).2
  | update_card (b : Board) (cardId : String) (input : UpdateCardInput) :
      ToolStep b (Kanban.update_card cardId input b).2
  | delete_card (b : Board) (cardId : String) :
      ToolStep b (Kanban.delete_card cardId b).2
  | add_label (b : Board) (cardId label : String) :
      ToolStep b (Kanban.add_label cardId label b).2
  | prioritize_column (b : Board) (column : String) :
      ToolStep b (Kanban.prioritize_column column b).2

/-- Boards reachable from the seed board by a sequence of tool-surface
invocations. -/
inductive Reachable : Board → Prop where
  | seed : Reachable INITIAL_STATE
  | step {b b' : Board} : Reachable b → ToolStep b b' → Reachable b'

/-! ## Concrete fixtures -/

/-- Fixture card A: priority `low`, in `todo`. -/
def cardA : Card :=
  { id := "A", title := "Card A", description := "", priority := "low",
    labels := [], column := "todo", createdAt := "2026-02-12T00:00:00.000Z" }

/-- Fixture card B: priority `critical`, in `todo`. -/
def cardB : Card :=
  { id := "B", title := "Card B", description := "", priority := "critical",
    labels := [], column := "todo", createdAt := "2026-02-12T00:00:01.000Z" }

/-- Fixture card C: priority `medium`, in `todo`. -/
def cardC : Card :=
  { id := "C", title := "Card C", description := "", priority := "medium",
    labels := [], column := "todo", createdAt := "2026-02-12T00:00:02.000Z" }

/-- Fixture board whose `todo` column holds A(low), B(critical), C(medium)
in that order. -/
def boardABC : Board := { columns := COLUMNS, cards := [cardA, cardB, cardC] }

/-! ## Helper lemmas -/

/-- On a board with pairwise-distinct ids, looking a member card up by its
own id finds that card. -/
lemma find?_id_eq_self {cards : List Card}
    (h : (cards.map Card.id).Nodup) {x : Card} (hx : x ∈ cards) :
    cards.find? (fun c => c.id == x.id) = some x := by
  induction cards with
  | nil => cases hx
  | cons y ys ih =>
    simp only [List.map_cons, List.nodup_cons] at h
    rcases List.mem_cons.mp hx with rfl | hx'
    · simp
    · have hne : ¬ ((fun c => c.id == x.id) y) := by
        simp only [beq_iff_eq]
        intro he
        exact h.1 (he ▸ List.mem_map_of_mem Card.id hx')
      rw [List.find?_cons_of_neg ys hne, ih h.2 hx']

/-- `find?` by id commutes with mapping an id-preserving card transform. -/
lemma find?_map_id_preserving (f : Card → Card) (hid : ∀ c, (f c).id = c.id)
    (cards : List Card) (cardId : String) :
    (cards.map f).find? (fun c => c.id == cardId) =
      (cards.find? (fun c => c.id == cardId)).map f := by
  rw [List.find?_map]
  have hp : ((fun c => c.id == cardId) ∘ f) = fun c => c.id == cardId := by
    funext c
    simp [Function.comp, hid]
  rw [hp]

/-! ## Claims -/

/-- C6. `move_card` fails (returning `{success:false, error}`) both when
`cardId` matches no card and when the card is already in the target
column; in both cases no dispatch happens and the board's card collection
is left entirely unchanged. -/
theorem move_card_failure_cases (b : Board) (cardId toColumn : String) :
    ((∀ c ∈ b.cards, c.id ≠ cardId) →
      (move_card cardId toColumn b).1.success = false ∧
      (∃ e, (move_card cardId toColumn b).1 = .failure e) ∧
      (move_card cardId toColumn b).2 = b) ∧
    (∀ card, b.cards.find? (fun c => c.id == cardId) = some card →
      card.column = toColumn →
      (move_card cardId toColumn b).1.success = false ∧
      (∃ e, (move_card cardId toColumn b).1 = .failure e) ∧
      (move_card cardId toColumn b).2 = b) := by
  constructor
  · intro h
    have hnone : b.cards.find? (fun c => c.id == cardId) = none := by
      simp only [List.find?_eq_none, beq_iff_eq]
      exact h
    simp [move_card, hnone, MoveCardResult.success]
  · intro card hfind hcol
    simp [move_card, hfind, hcol, MoveCardResult.success]

/-- C6 witness: on the fixture board, moving an unknown id fails and
changes nothing, and moving card A to the column it is already in fails
and changes nothing. -/
theorem move_card_failure_cases_witness :
    ((move_card "ZZZ" "done" boardABC).1.success = false ∧
      (∃ e, (move_card "ZZZ" "done" boardABC).1 = .failure e) ∧
      (move_card "ZZZ" "done" boardABC).2 = boardABC) ∧
    ((move_card "A" "todo" boardABC).1.success = false ∧
      (∃ e, (move_card "A" "todo" boardABC).1 = .failure e) ∧
      (move_card "A" "todo" boardABC).2 = boardABC) :=
  ⟨(move_card_failure_cases boardABC "ZZZ" "done").1 (by decide),
   (move_card_failure_cases boardABC "A" "todo").2 cardA (by decide) (by decide)⟩

/-- The validated `create_card` input when the caller supplies only a
title: Zod fills `priority := "medium"` and `column := "backlog"` by
`.default`, and leaves the `.optional()` fields undefined. -/
def titleOnlyInput (t : String) : CreateCardInput :=
  { title := t, description := none, priority := "medium",
    labels := none, column := "backlog" }

/-- The card `create_card` builds from a title-only input. -/
def defaultNewCard (freshId t now : String) : Card :=
  { id := freshId, title := t, description := "", priority := "medium",
    labels := [], column := "backlog", createdAt := now }

/-- C8. `create_card` invoked with only a title (so Zod fills
`priority := "medium"` and `column := "backlog"`, and `description` /
`labels` stay undefined) appends exactly one card with the default column,
medium priority, empty labels, the generated id, and the creation
timestamp; the result reports success and carries that card; and under the
`crypto.randomUUID()` freshness guarantee the generated id is distinct
from every existing id, preserving id uniqueness. -/
theorem create_card_title_only (b : Board) (t freshId now : String) :
    (create_card freshId now (titleOnlyInput t) b).2.cards =
      b.cards ++ [defaultNewCard freshId t now] ∧
    (create_card freshId now (titleOnlyInput t) b).1 =
      { success := true, card := defaultNewCard freshId t now } ∧
    ((∀ c ∈ b.cards, c.id ≠ freshId) → (b.cards.map Card.id).Nodup →
      ((create_card freshId now
          (titleOnlyInput t) b).2.cards.map Card.id).Nodup) := by
  refine ⟨?_, ?_, ?_⟩
  · simp [create_card, boardReducer, jsOrString, jsStrOr, titleOnlyInput,
      defaultNewCard]
  · simp [create_card, jsOrString, jsStrOr, titleOnlyInput, defaultNewCard]
  · intro hfresh hnd
    have : (create_card freshId now (titleOnlyInput t) b).2.cards =
        b.cards ++ [defaultNewCard freshId t now] := by
      simp [create_card, boardReducer, jsOrString, jsStrOr, titleOnlyInput,
        defaultNewCard]
    rw [this]
    simp only [List.map_append, List.map_cons, List.map_nil]
    rw [List.nodup_append]
    refine ⟨hnd, List.nodup_singleton _, ?_⟩
    intro a ha hb
    simp only [List.mem_singleton] at hb
    obtain ⟨c, hc, rfl⟩ := List.mem_map.mp ha
    exact hfresh c hc (hb ▸ rfl)

/-- C8 witness: creating `{title:"Fix bug"}` on the fixture board. -/
theorem create_card_title_only_witness :
    ((create_card "uuid-1" "2026-02-12T12:00:00.000Z"
        (titleOnlyInput "Fix bug") boardABC).2.cards.map Card.id).Nodup :=
  (create_card_title_only boardABC "Fix bug" "uuid-1"
      "2026-02-12T12:00:00.000Z").2.2 (by decide) (by decide)

/-- C9. `update_card` with only `priority` supplied rewrites exactly the
target card's `priority` field and leaves every other card untouched; in
general the Update-card merge takes exactly the supplied subset of
{title, description, priority, labels} and leaves unspecified fields (and
`id`, `column`, `createdAt`, which cannot be supplied) unchanged. -/
theorem update_card_priority_only (b : Board) (cardId p : String)
    (card : Card)
    (hfind : b.cards.find? (fun c => c.id == cardId) = some card) :
    (update_card cardId
        { title := none, description := none, priority := some p,
          labels := none } b).2.cards =
      b.cards.map (fun c =>
        if c.id == cardId then { c with priority := p } else c) ∧
    (∀ c ∈ b.cards, c.id ≠ cardId →
      c ∈ (update_card cardId
          { title := none, description := none, priority := some p,
            labels := none } b).2.cards) ∧
    (update_card cardId
        { title := none, description := none, priority := some p,
          labels := none } b).1 = .ok cardId ["priority"] ∧
    (∀ (c : Card) (u : CardUpdates),
      (applyUpdates c u).id = c.id ∧
      (applyUpdates c u).column = c.column ∧
      (applyUpdates c u).createdAt = c.createdAt ∧
      (u.title = none → (applyUpdates c u).title = c.title) ∧
      (u.description = none →
        (applyUpdates c u).description = c.description) ∧
      (u.priority = none → (applyUpdates c u).priority = c.priority) ∧
      (u.labels = none → (applyUpdates c u).labels = c.labels) ∧
      (∀ v, u.title = some v → (applyUpdates c u).title = v) ∧
      (∀ v, u.description = some v → (applyUpdates c u).description = v) ∧
      (∀ v, u.priority = some v → (applyUpdates c u).priority = v) ∧
      (∀ v, u.labels = some v → (applyUpdates c u).labels = v)) := by
  refine ⟨?_, ?_, ?_, ?_⟩
  · simp [update_card, hfind, boardReducer, applyUpdates]
  · intro c hc hne
    simp only [update_card, hfind, boardReducer]
    have : (if c.id == cardId then applyUpdates c
        { title := none, description := none, priority := some p,
          labels := none } else c) = c := by
      simp [hne]
    exact this ▸ List.mem_map_of_mem _ hc
  · simp [update_card, hfind, updatedFieldsOf]
  · intro c u
    obtain ⟨ut, ud, up, ul⟩ := u
    cases ut <;> cases ud <;> cases up <;> cases ul <;>
      simp [applyUpdates]

/-- C9 witness: updating only the priority of fixture card A. -/
theorem update_card_priority_only_witness :
    (update_card "A"
        { title := none, description := none, priority := some "high",
          labels := none } boardABC).1 = .ok "A" ["priority"] :=
  (update_card_priority_only boardABC "A" "high" cardA (by decide)).2.2.1

/-- C7. `add_label` is idempotent: when the card is present, calling it a
second time with the same card id and label leaves the board unchanged and
reports the already-exists condition; at the engine layer the Add-label
transition appends the label to a card exactly when the card matches and
the label is not already present (case-sensitive membership). -/
theorem add_label_idempotent (b : Board) (cardId label : String)
    (card : Card)
    (hfind : b.cards.find? (fun c => c.id == cardId) = some card) :
    (add_label cardId label (add_label cardId label b).2).2 =
      (add_label cardId label b).2 ∧
    (add_label cardId label (add_label cardId label b).2).1 =
      .alreadyExists cardId label ∧
    (∀ (g n : String) (b₂ : Board) (cid lb : String),
      (boardReducer g n b₂ (.addLabel cid lb)).cards =
        b₂.cards.map fun c =>
          if c.id = cid ∧ lb ∉ c.labels then
            { c with labels := c.labels ++ [lb] }
          else c) := by
  have hengine : ∀ (g n : String) (b₂ : Board) (cid lb : String),
      (boardReducer g n b₂ (.addLabel cid lb)).cards =
        b₂.cards.map fun c =>
          if c.id = cid ∧ lb ∉ c.labels then
            { c with labels := c.labels ++ [lb] }
          else c := by
    intro g n b₂ cid lb
    simp only [boardReducer]
    congr 1
    funext c
    by_cases hid : c.id = cid
    · by_cases hlb : lb ∈ c.labels <;>
        simp [addLabelTransform, hid, hlb, List.contains_iff_exists_mem_beq]
    · simp [addLabelTransform, hid, bne_iff_ne]
  have hmain : (add_label cardId label (add_label cardId label b).2).2 =
      (add_label cardId label b).2 ∧
      (add_label cardId label (add_label cardId label b).2).1 =
        AddLabelResult.alreadyExists cardId label := by
    by_cases hlab : label ∈ card.labels
    · have h1 : add_label cardId label b =
          (.alreadyExists cardId label, b) := by
        simp [add_label, hfind, hlab]
      simp [h1]
    · have h1 : add_label cardId label b =
          (.ok cardId label (card.labels.length + 1),
           boardReducer "" "" b (.addLabel cardId label)) := by
        simp [add_label, hfind, hlab]
      have hcardid : card.id = cardId := by
        have h := List.find?_some hfind
        simp only [beq_iff_eq] at h
        exact h
      have hf : ∀ c : Card, (addLabelTransform cardId label c).id = c.id := by
        intro c
        by_cases h2 : c.id = cardId <;> by_cases h3 : label ∈ c.labels <;>
          simp [addLabelTransform, h2, h3]
      have hb1 : (boardReducer "" "" b (.addLabel cardId label)).cards =
          b.cards.map (addLabelTransform cardId label) := rfl
      have hfind2 : (boardReducer "" "" b
          (.addLabel cardId label)).cards.find? (fun c => c.id == cardId) =
          some { card with labels := card.labels ++ [label] } := by
        rw [hb1, find?_map_id_preserving _ hf, hfind]
        simp [addLabelTransform, hcardid, hlab]
      have h2 : add_label cardId label
          (boardReducer "" "" b (.addLabel cardId label)) =
          (.alreadyExists cardId label,
           boardReducer "" "" b (.addLabel cardId label)) := by
        simp [add_label, hfind2]
      simp [h1, h2]
  exact ⟨hmain.1, hmain.2, hengine⟩

/-- C7 witness: adding the same label twice to fixture card A. -/
theorem add_label_idempotent_witness :
    (add_label "A" "urgent" (add_label "A" "urgent" boardABC).2).2 =
      (add_label "A" "urgent" boardABC).2 ∧
    (add_label "A" "urgent" (add_label "A" "urgent" boardABC).2).1 =
      AddLabelResult.alreadyExists "A" "urgent" :=
  ⟨(add_label_idempotent boardABC "A" "urgent" cardA (by decide)).1,
   (add_label_idempotent boardABC "A" "urgent" cardA (by decide)).2.1⟩

/-- Encoding a label list to JSON strings and reading it back is lossless. -/
lemma strList_roundtrip (ls : List String) :
    strList? (ls.map Json.str) = some ls := by
  induction ls with
  | nil => rfl
  | cons x xs ih => simp [strList?, jsonStr?, ih]

/-- Serializing one card and reading it back is lossless. -/
lemma decodeCard_encodeCard (c : Card) : decodeCard (encodeCard c) = some c := by
  simp [decodeCard, encodeCard, jsonStr?, jsonStrList?, strList_roundtrip]

/-- Serializing the card collection and reading it back is lossless. -/
lemma decodeCards_serializeCards (cards : List Card) :
    decodeCards (serializeCards cards) = some cards := by
  simp only [decodeCards, serializeCards]
  induction cards with
  | nil => rfl
  | cons x xs ih => simp [cardList?, decodeCard_encodeCard, ih]

/-- C3 counterexample: on a board whose `cards` collection is empty, the
serialize-then-hydrate round trip does not reproduce the empty collection —
the hydration initializer's `cards.length > 0` guard rejects the stored
empty array and falls back to the seed cards. -/
theorem serialize_roundtrip_empty_counterexample :
    (boardInit (some (serializeCards [])) INITIAL_STATE).cards ≠ [] := by
  decide

/-- C3 (amended). For every board with a nonempty `cards` collection,
serializing `cards` to the durable format and reloading through the
hydration path reproduces an identical collection: same ids, same fields,
same order. (The empty collection instead hydrates to the seed card set.) -/
theorem serialize_roundtrip_nonempty (b : Board) (h : b.cards ≠ []) :
    (boardInit (some (serializeCards b.cards)) INITIAL_STATE).cards =
      b.cards := by
  have hl : 0 < b.cards.length := List.length_pos.mpr h
  simp [boardInit, decodeCards_serializeCards, hl]

/-- C3 witness: round trip of a one-card board. -/
theorem serialize_roundtrip_nonempty_witness :
    (boardInit (some (serializeCards [cardA])) INITIAL_STATE).cards =
      [cardA] :=
  serialize_roundtrip_nonempty { columns := COLUMNS, cards := [cardA] }
    (by decide)

/-- C10. Startup hydration is a total function that never fails hard: for
every stored value the resulting board is either the seed-backed initial
state or the initial state carrying the stored nonempty card collection;
and when the stored value is missing (or `JSON.parse` threw, which the
`try`/`catch` treats identically), fails the `Array.isArray` check, or is
the empty array, the board falls back to the fixed seed card set. -/
theorem hydration_fallback :
    (boardInit none INITIAL_STATE).cards = SEED_CARDS ∧
    (∀ j : Json, (∀ xs, j ≠ Json.arr xs) →
      (boardInit (some j) INITIAL_STATE).cards = SEED_CARDS) ∧
    (boardInit (some (Json.arr [])) INITIAL_STATE).cards = SEED_CARDS ∧
    (∀ saved : Option Json,
      boardInit saved INITIAL_STATE = INITIAL_STATE ∨
      ∃ cards, cards ≠ [] ∧
        boardInit saved INITIAL_STATE = { INITIAL_STATE with cards := cards }) := by
  refine ⟨rfl, ?_, by decide, ?_⟩
  · intro j hj
    cases j with
    | arr xs => exact absurd rfl (hj xs)
    | null => rfl
    | bool v => rfl
    | str s => rfl
    | obj fields => rfl
  · intro saved
    match saved with
    | none => exact Or.inl rfl
    | some j =>
      simp only [boardInit]
      cases hd : decodeCards j with
      | none => exact Or.inl rfl
      | some cards =>
        by_cases hl : 0 < cards.length
        · refine Or.inr ⟨cards, ?_, ?_⟩
          · exact List.ne_nil_of_length_pos hl
          · simp [hl]
        · simp [hl]

/-- C10 witness: a stored non-array value (a bare string) hydrates to the
seed card set. -/
theorem hydration_fallback_witness :
    (boardInit (some (Json.str "oops")) INITIAL_STATE).cards = SEED_CARDS :=
  hydration_fallback.2.1 (Json.str "oops") (fun _ h => Json.noConfusion h)

/-- C2. Handlers read the board through the live-state accessor, which a
committed dispatch updates before the next operation runs; consequently a
successful `move_card` followed immediately by `get_board` reports the
moved card id inside exactly the target column's group. -/
theorem move_then_get_board_fresh (b : Board) (cardId toColumn : String)
    (hsucc : (move_card cardId toColumn b).1.success = true) :
    ∀ entry ∈ (get_board (move_card cardId toColumn b).2).columns,
      ((∃ v ∈ entry.cards, v.id = cardId) ↔ entry.column = toColumn) := by
  cases hfind : b.cards.find? (fun c => c.id == cardId) with
  | none =>
    simp only [move_card, hfind, MoveCardResult.success] at hsucc
    exact Bool.noConfusion hsucc
  | some card =>
    by_cases hcol : (card.column == toColumn) = true
    · simp only [move_card, hfind, hcol, if_true, MoveCardResult.success]
        at hsucc
      exact Bool.noConfusion hsucc
    · have hb2 : (move_card cardId toColumn b).2 =
          boardReducer "" "" b (.moveCard cardId toColumn) := by
        simp [move_card, hfind, hcol]
      have hcardid : card.id = cardId := by
        have h := List.find?_some hfind
        simp only [beq_iff_eq] at h
        exact h
      have hmemcard : card ∈ b.cards := List.mem_of_find?_eq_some hfind
      intro entry hentry
      rw [hb2] at hentry
      simp only [get_board, List.mem_map] at hentry
      obtain ⟨colId, hcolId, rfl⟩ := hentry
      constructor
      · rintro ⟨v, hv, hvid⟩
        simp only [List.mem_map, List.mem_filter] at hv
        obtain ⟨c, ⟨hcmem, hccol⟩, rfl⟩ := hv
        have hcmem' : c ∈ b.cards.map (fun card =>
            if card.id == cardId then { card with column := toColumn }
            else card) := hcmem
        obtain ⟨c0, hc0, rfl⟩ := List.mem_map.mp hcmem'
        by_cases h0 : (c0.id == cardId) = true
        · simp only [h0, if_true] at hccol
          simp only [beq_iff_eq] at hccol
          exact hccol.symm
        · simp only [h0, if_false] at hvid
          simp only [beq_iff_eq] at h0
          exact absurd hvid h0
      · intro hcoleq
        have hfcard : (if card.id == cardId then
            { card with column := toColumn } else card) =
            { card with column := toColumn } := by
          simp [hcardid]
        refine ⟨⟨card.id, card.title, card.description, card.priority,
          card.labels, card.createdAt⟩, ?_, hcardid⟩
        simp only [List.mem_map]
        refine ⟨{ card with column := toColumn }, ?_, rfl⟩
        simp only [List.mem_filter]
        refine ⟨?_, ?_⟩
        · rw [← hfcard]
          exact List.mem_map_of_mem _ hmemcard
        · have hc : colId = toColumn := hcoleq
          simp [hc]

/-- C2 witness: moving fixture card A (in `todo`) to `done` and reading
the board back shows A's id inside the `done` group (the fourth column
entry of the `get_board` result). -/
theorem move_then_get_board_fresh_witness :
    "A" ∈ (((get_board (move_card "A" "done" boardABC).2).columns.getD 3
        { column := "", title := "", cardCount := 0, cards := [] }).cards.map
      CardView.id) := by
  have h := move_then_get_board_fresh boardABC "A" "done" (by decide)
      ((get_board (move_card "A" "done" boardABC).2).columns.getD 3
        { column := "", title := "", cardCount := 0, cards := [] })
      (by decide)
  obtain ⟨v, hv, hvid⟩ := h.mpr (by decide)
  have h2 := List.mem_map_of_mem CardView.id hv
  rwa [hvid] at h2

/-- The claim's reassembly description for the Reorder-column transition:
all cards not in the target column in their original relative order,
followed by the supplied ids resolved against the current state in the
supplied order (ids with no matching card contribute nothing). -/
def reorderSpec (cards : List Card) (column : String)
    (cardIds : List String) : List Card :=
  (cards.filter fun c => c.column != column) ++
    (cardIds.filterMap fun i => cards.find? fun c => c.id == i)

/-- C5. The Reorder-column transition produces exactly the reassembly the
claim describes; a supplied id matching no card is silently dropped (the
transition result is the same as if the id had not been supplied); and a
card of the column omitted from the supplied list is removed from the
board entirely. -/
theorem reorder_column_semantics (g n : String) (b : Board)
    (column : String) (cardIds : List String) :
    (boardReducer g n b (.reorderColumn column cardIds)).cards =
      reorderSpec b.cards column cardIds ∧
    (∀ l1 l2 i, cardIds = l1 ++ i :: l2 → (∀ c ∈ b.cards, c.id ≠ i) →
      boardReducer g n b (.reorderColumn column cardIds) =
        boardReducer g n b (.reorderColumn column (l1 ++ l2))) ∧
    (∀ c ∈ b.cards, c.column = column → c.id ∉ cardIds →
      c ∉ (boardReducer g n b (.reorderColumn column cardIds)).cards) := by
  refine ⟨?_, ?_, ?_⟩
  · simp [boardReducer, reorderSpec, List.reduceOption, List.filterMap_map]
  · rintro l1 l2 i rfl hno
    have hnone : b.cards.find? (fun c => c.id == i) = none := by
      simp only [List.find?_eq_none, beq_iff_eq]
      exact hno
    simp [boardReducer, List.reduceOption, List.filterMap_map,
      List.filterMap_append, hnone]
  · intro c hc hcol hid hmem
    have hmem' : c ∈ (b.cards.filter fun x => x.column != column) ++
        ((cardIds.map fun i => b.cards.find? fun x => x.id == i).reduceOption) :=
      hmem
    rcases List.mem_append.mp hmem' with h | h
    · have h2 := (List.mem_filter.mp h).2
      simp [hcol] at h2
    · rw [List.reduceOption_mem_iff] at h
      obtain ⟨i, hi, hfi⟩ := List.mem_map.mp h
      have := List.find?_some hfi
      simp only [beq_iff_eq] at this
      exact hid (this ▸ hi)

/-- C5 witness: on the fixture board, reordering `todo` with the id list
`["C", "ZZZ", "A"]` (`"ZZZ"` unknown, `"B"` omitted) drops `"ZZZ"` as if
absent and removes card B from the board. -/
theorem reorder_column_semantics_witness :
    (boardReducer "" "" boardABC
        (.reorderColumn "todo" ["C", "ZZZ", "A"])) =
      (boardReducer "" "" boardABC (.reorderColumn "todo" ["C", "A"])) ∧
    cardB ∉ (boardReducer "" "" boardABC
        (.reorderColumn "todo" ["C", "ZZZ", "A"])).cards :=
  ⟨(reorder_column_semantics "" "" boardABC "todo" ["C", "ZZZ", "A"]).2.1
      ["C"] ["A"] "ZZZ" rfl (by decide),
   (reorder_column_semantics "" "" boardABC "todo" ["C", "ZZZ", "A"]).2.2
      cardB (by decide) (by decide) (by decide)⟩

instance : IsTotal Card rankLe := ⟨fun a b => Nat.le_total (priorityRank a) (priorityRank b)⟩

instance : IsTrans Card rankLe := ⟨fun _ _ _ => Nat.le_trans⟩

/-- Resolving the ids of member cards against a duplicate-free board finds
exactly those cards back, in order. -/
lemma reduceOption_find_map_of_nodup (b : Board)
    (hnd : (b.cards.map Card.id).Nodup) (l : List Card)
    (hl : ∀ x ∈ l, x ∈ b.cards) :
    (((l.map fun c => c.id).map
        fun i => b.cards.find? fun c => c.id == i).reduceOption) = l := by
  rw [List.map_map]
  have h : ∀ x ∈ l, ((fun i => b.cards.find? fun c => c.id == i) ∘
      fun c => c.id) x = some x := by
    intro x hx
    exact find?_id_eq_self hnd (hl x hx)
  rw [List.map_congr_left h]
  simp [List.reduceOption, List.filterMap_map]

/-- On a duplicate-free board, the `prioritize_column` dispatch leaves the
cards of other columns in place (in order) followed by the stably sorted
target-column cards. -/
lemma prioritize_cards_eq (b : Board) (column : String)
    (hnd : (b.cards.map Card.id).Nodup) :
    (prioritize_column column b).2.cards =
      (b.cards.filter fun c => c.column != column) ++
        ((b.cards.filter fun c => c.column == column).insertionSort rankLe) := by
  simp only [prioritize_column, boardReducer]
  congr 1
  apply reduceOption_find_map_of_nodup b hnd
  intro x hx
  exact (List.mem_filter.mp ((List.mem_insertionSort rankLe).mp hx)).1

/-- Stability of the priority sort, stated per priority class: the sorted
column restricted to one priority value is exactly the original column
restricted to that value, in the original order. -/
lemma insertionSort_filter_rank_class (l : List Card) (p : String) :
    ((l.insertionSort rankLe).filter fun c => c.priority == p) =
      l.filter fun c => c.priority == p := by
  have hpair : (l.filter fun c => c.priority == p).Pairwise rankLe := by
    apply List.pairwise_of_forall_mem_list
    intro a ha b hb
    have hap := (List.mem_filter.mp ha).2
    have hbp := (List.mem_filter.mp hb).2
    simp only [beq_iff_eq] at hap hbp
    simp [rankLe, priorityRank, hap, hbp]
  have hsub : List.Sublist (l.filter fun c => c.priority == p)
      (l.insertionSort rankLe) :=
    List.sublist_insertionSort hpair (List.filter_sublist l)
  have hsub2 : List.Sublist (l.filter fun c => c.priority == p)
      ((l.insertionSort rankLe).filter fun c => c.priority == p) := by
    have h2 := hsub.filter (fun c => c.priority == p)
    simpa using h2
  have hperm : List.Perm
      ((l.insertionSort rankLe).filter fun c => c.priority == p)
      (l.filter fun c => c.priority == p) :=
    (List.perm_insertionSort rankLe l).filter _
  exact (hsub2.eq_of_length hperm.length_eq.symm).symm

/-- C4. On a duplicate-free board whose priorities are enumeration values
(every board of this system), `prioritize_column`: (a) returns an order
whose priority ranks (critical=0, high=1, medium=2, low=3) are
non-decreasing; (b) cards of equal priority keep their prior relative
order (stable sort); (c) cards of every other column keep their pre-call
relative order; and (d) on a `todo` column holding A(low), B(critical),
C(medium) in that order, it dispatches and returns the id order
[B, C, A]. -/
theorem prioritize_column_correct (b : Board) (column : String)
    (hnd : (b.cards.map Card.id).Nodup)
    (_hpr : ∀ c ∈ b.cards, c.priority ∈ PRIORITIES) :
    List.Sorted (· ≤ ·)
      ((prioritize_column column b).1.newOrder.map
        fun v => (priorityOrder v.priority).getD 4) ∧
    (∀ p : String,
      (((prioritize_column column b).2.cards.filter
          fun c => c.column == column).filter fun c => c.priority == p) =
        ((b.cards.filter fun c => c.column == column).filter
          fun c => c.priority == p)) ∧
    (∀ col, col ≠ column →
      ((prioritize_column column b).2.cards.filter
          fun c => c.column == col) =
        b.cards.filter fun c => c.column == col) ∧
    ((prioritize_column "todo" boardABC).1.newOrder.map CardBrief.id =
        ["B", "C", "A"] ∧
      (prioritize_column "todo" boardABC).2.cards.map Card.id =
        ["B", "C", "A"]) := by
  have hcolsort : ∀ x ∈ (b.cards.filter fun c =>
      c.column == column).insertionSort rankLe, x.column == column := by
    intro x hx
    exact (List.mem_filter.mp ((List.mem_insertionSort rankLe).mp hx)).2
  refine ⟨?_, ?_, ?_, by decide, by decide⟩
  · have hs := List.sorted_insertionSort rankLe
      (b.cards.filter fun c => c.column == column)
    simp only [prioritize_column]
    rw [List.map_map]
    refine (List.pairwise_map).mpr ?_
    exact hs.imp (fun hab => hab)
  · intro p
    rw [prioritize_cards_eq b column hnd, List.filter_append]
    have h1 : ((b.cards.filter fun c => c.column != column).filter
        fun c => c.column == column) = [] := by
      rw [List.filter_eq_nil_iff]
      intro c hc
      have h2 := (List.mem_filter.mp hc).2
      simp only [bne_iff_ne, ne_eq] at h2
      simp [h2]
    have h2 : (((b.cards.filter fun c => c.column == column).insertionSort
        rankLe).filter fun c => c.column == column) =
        (b.cards.filter fun c => c.column == column).insertionSort rankLe :=
      List.filter_eq_self.mpr hcolsort
    rw [h1, h2, List.nil_append, insertionSort_filter_rank_class]
  · intro col hne
    rw [prioritize_cards_eq b column hnd, List.filter_append]
    have h1 : ((b.cards.filter fun c => c.column != column).filter
        fun c => c.column == col) = b.cards.filter fun c => c.column == col := by
      rw [List.filter_filter]
      apply List.filter_congr
      intro c _
      by_cases h : c.column = col
      · simp [h, hne]
      · simp [h]
    have h2 : (((b.cards.filter fun c => c.column == column).insertionSort
        rankLe).filter fun c => c.column == col) = [] := by
      rw [List.filter_eq_nil_iff]
      intro c hc
      have h3 := hcolsort c hc
      simp only [beq_iff_eq] at h3 ⊢
      rw [h3]
      exact fun h4 => hne h4.symm
    rw [h1, h2, List.append_nil]

/-- C4 witness: the fixture board (distinct ids, enumeration priorities)
instantiates every hypothesis; the concrete conjunct gives [B, C, A]. -/
theorem prioritize_column_correct_witness :
    (prioritize_column "todo" boardABC).1.newOrder.map CardBrief.id =
      ["B", "C", "A"] :=
  (prioritize_column_correct boardABC "todo" (by decide) (by decide)).2.2.2.1

/-- Mapping an id-preserving transform over the cards leaves the id list
unchanged. -/
lemma map_id_of_id_preserving (f : Card → Card) (hid : ∀ c, (f c).id = c.id)
    (cards : List Card) :
    (cards.map f).map Card.id = cards.map Card.id := by
  rw [List.map_map]
  exact List.map_congr_left (fun a _ => hid a)

/-- The card that `create_card`'s handler payload resolves to once the
reducer applies its defaults. -/
def resolvedNewCard (freshId now : String) (input : CreateCardInput) : Card :=
  { id := freshId, title := input.title,
    description := input.description.getD "",
    priority := jsStrOr input.priority "medium",
    labels := input.labels.getD [],
    column := jsStrOr input.column "backlog",
    createdAt := now }

/-- The exact card list `create_card` commits (the handler payload pushed
through the reducer's defaults). -/
lemma create_card_board (freshId now : String) (input : CreateCardInput)
    (b : Board) :
    (create_card freshId now input b).2.cards =
      b.cards ++ [resolvedNewCard freshId now input] := by
  by_cases hd : input.description.getD "" = "" <;>
    by_cases hp : input.priority = "" <;>
      by_cases hc : input.column = "" <;>
        simp [create_card, boardReducer, jsOrString, jsStrOr, hd, hp, hc,
          resolvedNewCard]

/-- `create_card` preserves the board invariant when its column argument
is an enumeration member and the generated id is fresh. -/
lemma good_create (freshId now : String) (input : CreateCardInput)
    (b : Board) (hcol : input.column ∈ COLUMNS)
    (hfresh : ∀ c ∈ b.cards, c.id ≠ freshId) (h : GoodBoard b) :
    GoodBoard (create_card freshId now input b).2 := by
  obtain ⟨hmem, hnd⟩ := h
  have hcolnew : jsStrOr input.column "backlog" ∈ COLUMNS := by
    by_cases he : input.column = ""
    · simp only [jsStrOr, he, if_pos rfl]
      decide
    · simpa [jsStrOr, he] using hcol
  constructor
  · intro c hc
    rw [create_card_board] at hc
    rcases List.mem_append.mp hc with h1 | h1
    · exact hmem c h1
    · rw [List.mem_singleton] at h1
      rw [h1]
      exact hcolnew
  · rw [create_card_board, List.map_append, List.map_singleton,
      List.nodup_append]
    refine ⟨hnd, List.nodup_singleton _, ?_⟩
    intro a ha hb
    rw [List.mem_singleton] at hb
    obtain ⟨c, hc, rfl⟩ := List.mem_map.mp ha
    exact hfresh c hc hb

/-- `move_card` preserves the board invariant when the target column is an
enumeration member. -/
lemma good_move (cardId toColumn : String) (b : Board)
    (hcol : toColumn ∈ COLUMNS) (h : GoodBoard b) :
    GoodBoard (move_card cardId toColumn b).2 := by
  obtain ⟨hmem, hnd⟩ := h
  cases hfind : b.cards.find? (fun c => c.id == cardId) with
  | none =>
    have hb : (move_card cardId toColumn b).2 = b := by
      simp [move_card, hfind]
    rw [hb]
    exact ⟨hmem, hnd⟩
  | some card =>
    by_cases hsame : (card.column == toColumn) = true
    · have hb : (move_card cardId toColumn b).2 = b := by
        simp [move_card, hfind, hsame]
      rw [hb]
      exact ⟨hmem, hnd⟩
    · have hb : (move_card cardId toColumn b).2.cards =
          b.cards.map (fun c =>
            if c.id == cardId then { c with column := toColumn } else c) := by
        simp [move_card, hfind, hsame, boardReducer]
      constructor
      · intro c hc
        rw [hb] at hc
        obtain ⟨c0, hc0, rfl⟩ := List.mem_map.mp hc
        by_cases h0 : (c0.id == cardId) = true
        · simpa [h0] using hcol
        · simpa [h0] using hmem c0 hc0
      · rw [hb, map_id_of_id_preserving]
        · exact hnd
        · intro c
          by_cases h0 : (c.id == cardId) = true <;> simp [h0]

/-- `update_card` preserves the board invariant (it can change neither ids
nor columns). -/
lemma good_update (cardId : String) (input : UpdateCardInput) (b : Board)
    (h : GoodBoard b) : GoodBoard (update_card cardId input b).2 := by
  obtain ⟨hmem, hnd⟩ := h
  cases hfind : b.cards.find? (fun c => c.id == cardId) with
  | none =>
    have hb : (update_card cardId input b).2 = b := by
      simp [update_card, hfind]
    rw [hb]
    exact ⟨hmem, hnd⟩
  | some card =>
    have hb : (update_card cardId input b).2.cards =
        b.cards.map (fun c =>
          if c.id == cardId then applyUpdates c
            { title := input.title, description := input.description,
              priority := input.priority, labels := input.labels }
          else c) := by
      simp [update_card, hfind, boardReducer]
    constructor
    · intro c hc
      rw [hb] at hc
      obtain ⟨c0, hc0, rfl⟩ := List.mem_map.mp hc
      by_cases h0 : (c0.id == cardId) = true
      · simpa [h0, applyUpdates] using hmem c0 hc0
      · simpa [h0] using hmem c0 hc0
    · rw [hb, map_id_of_id_preserving]
      · exact hnd
      · intro c
        by_cases h0 : (c.id == cardId) = true <;> simp [h0, applyUpdates]

/-- `delete_card` preserves the board invariant. -/
lemma good_delete (cardId : String) (b : Board) (h : GoodBoard b) :
    GoodBoard (delete_card cardId b).2 := by
  obtain ⟨hmem, hnd⟩ := h
  cases hfind : b.cards.find? (fun c => c.id == cardId) with
  | none =>
    have hb : (delete_card cardId b).2 = b := by
      simp [delete_card, hfind]
    rw [hb]
    exact ⟨hmem, hnd⟩
  | some card =>
    have hb : (delete_card cardId b).2.cards =
        b.cards.filter (fun c => c.id != cardId) := by
      simp [delete_card, hfind, boardReducer]
    constructor
    · intro c hc
      rw [hb] at hc
      exact hmem c (List.mem_filter.mp hc).1
    · rw [hb]
      exact ((List.filter_sublist b.cards).map Card.id).nodup hnd

/-- `add_label` preserves the board invariant (it can change neither ids
nor columns). -/
lemma good_addLabel (cardId label : String) (b : Board) (h : GoodBoard b) :
    GoodBoard (add_label cardId label b).2 := by
  obtain ⟨hmem, hnd⟩ := h
  cases hfind : b.cards.find? (fun c => c.id == cardId) with
  | none =>
    have hb : (add_label cardId label b).2 = b := by
      simp [add_label, hfind]
    rw [hb]
    exact ⟨hmem, hnd⟩
  | some card =>
    by_cases hlab : label ∈ card.labels
    · have hb : (add_label cardId label b).2 = b := by
        simp [add_label, hfind, hlab]
      rw [hb]
      exact ⟨hmem, hnd⟩
    · have hb : (add_label cardId label b).2.cards =
          b.cards.map (addLabelTransform cardId label) := by
        simp [add_label, hfind, hlab, boardReducer]
      have hpres : ∀ c : Card, (addLabelTransform cardId label c).id = c.id ∧
          (addLabelTransform cardId label c).column = c.column := by
        intro c
        by_cases h0 : (c.id != cardId) = true <;>
          by_cases h1 : label ∈ c.labels <;>
            simp [addLabelTransform, h0, h1]
      constructor
      · intro c hc
        rw [hb] at hc
        obtain ⟨c0, hc0, rfl⟩ := List.mem_map.mp hc
        rw [(hpres c0).2]
        exact hmem c0 hc0
      · rw [hb, map_id_of_id_preserving _ (fun c => (hpres c).1)]
        exact hnd

/-- `prioritize_column` permutes the card collection, so it preserves the
board invariant. -/
lemma good_prioritize (column : String) (b : Board) (h : GoodBoard b) :
    GoodBoard (prioritize_column column b).2 := by
  obtain ⟨hmem, hnd⟩ := h
  have hperm : List.Perm (prioritize_column column b).2.cards b.cards := by
    rw [prioritize_cards_eq b column hnd]
    have h1 : List.Perm
        ((b.cards.filter fun c => c.column == column).insertionSort rankLe)
        (b.cards.filter fun c => c.column == column) :=
      List.perm_insertionSort rankLe _
    have h2 := List.Perm.append_left
      (b.cards.filter fun c => c.column != column) h1
    have h4 := List.filter_append_perm (fun c => c.column != column) b.cards
    have h5 : (b.cards.filter fun c => !(c.column != column)) =
        b.cards.filter fun c => c.column == column := by
      apply List.filter_congr
      intro c _
      simp [bne]
    rw [h5] at h4
    exact h2.trans h4
  constructor
  · intro c hc
    exact hmem c (hperm.mem_iff.mp hc)
  · exact ((hperm.map Card.id).nodup_iff).mpr hnd

/-- C1. Every board reachable from the seed board through any sequence of
the eight tool-surface operations keeps every card's `column` inside the
fixed column set {backlog, todo, in-progress, done} and keeps all card
ids pairwise distinct. -/
theorem reachable_boards_good (b : Board) (h : Reachable b) : GoodBoard b := by
  induction h with
  | seed => exact ⟨by decide, by decide⟩
  | step hr hs ih =>
    cases hs with
    | get_board => exact ih
    | get_column_summary column => exact ih
    | create_card freshId now input hcol hfresh =>
      exact good_create freshId now input _ hcol hfresh ih
    | move_card cardId toColumn hcol =>
      exact good_move cardId toColumn _ hcol ih
    | update_card cardId input => exact good_update cardId input _ ih
    | delete_card cardId => exact good_delete cardId _ ih
    | add_label cardId label => exact good_addLabel cardId label _ ih
    | prioritize_column column => exact good_prioritize column _ ih

/-- C1 witness: the board after one tool-surface move on the seed board
satisfies the invariant. -/
theorem reachable_boards_good_witness :
    GoodBoard (move_card "seed-5" "done" INITIAL_STATE).2 :=
  reachable_boards_good (move_card "seed-5" "done" INITIAL_STATE).2
    (Reachable.step Reachable.seed
      (ToolStep.move_card INITIAL_STATE "seed-5" "done" (by decide)))

end Kanban
